import Mathlib

/-!
# A shallow embedding of the `RandomNumberRaffle` contract

This file embeds the Solidity contract `RandomNumberRaffle` (the raffle engine
of the repository) into Lean and proves the state invariants and functional
properties its specification states.

Modelling conventions:
* addresses (`address`) are `Nat`; the zero address is `0`;
* `mapping(address => Participant)` is an association list of key/value pairs,
  lookup returning the zero-initialised `Participant` when the key is absent
  (Solidity mapping semantics).  `delete` removes the key;
* `mapping(uint256 => bool) numberAssigned` is the list of keys currently
  mapped to `true` (all other keys are `false`, the mapping's default);
* dynamic arrays (`assignedNumbers`, `participantAddresses`,
  `winnerAddresses`, `winners`) are lists, `push` appending at the end;
* the `uint256(keccak256(abi.encodePacked(...)))` entropy words are opaque
  environment inputs: each state-mutating call takes an `entropy : Nat`
  parameter, and the contract's `% n` reductions are applied to it exactly as
  in the source;
* a failing `require` reverts the transaction: the call returns an
  `Except RaffleError` value and, per EVM revert semantics, the state after a
  failed call is the state before it (made explicit by the `afterEnter`,
  `afterDraw`, `afterReset` step functions).
-/

/-- `struct Participant \x7b string name; uint256 number; bool exists; \x7d`.
The field `exists` is named `exists_` because `exists` is a Lean keyword. -/
structure Participant where
  name : String
  number : Nat
  exists_ : Bool
deriving Repr, DecidableEq

/-- `struct WinnerInfo \x7b address winnerAddress; string name; uint256 number; \x7d`. -/
structure WinnerInfo where
  winnerAddress : Nat
  name : String
  number : Nat
deriving Repr, DecidableEq

/-- The contract storage of `RandomNumberRaffle`. -/
structure RaffleState where
  /-- `address public admin` -/
  admin : Nat
  /-- `mapping(address => Participant) public participants`, as the list of
  keys that hold a stored value. -/
  participants : List (Nat × Participant)
  /-- `uint256[] public assignedNumbers` -/
  assignedNumbers : List Nat
  /-- `address[] public participantAddresses` -/
  participantAddresses : List Nat
  /-- `address[] public winnerAddresses` -/
  winnerAddresses : List Nat
  /-- `WinnerInfo[] public winners` -/
  winners : List WinnerInfo
  /-- `mapping(uint256 => bool) public numberAssigned`, as the list of keys
  currently mapped to `true`. -/
  numberAssigned : List Nat
deriving Repr, DecidableEq

/-- The revert reasons of the contract's `require` statements. -/
inductive RaffleError where
  /-- "You have already entered the raffle" -/
  | AlreadyRegistered
  /-- "All numbers have been assigned" -/
  | PoolExhausted
  /-- "Only admin can call this function" (modifier `onlyAdmin`) -/
  | Unauthorized
  /-- "No eligible participants left" -/
  | NoEligibleParticipants
deriving Repr, DecidableEq

/-- `uint256 public constant MAX_NUMBER = 100` -/
def MAX_NUMBER : Nat := 100

/-- Reading key `a` of an association-list mapping: the stored value if
present, otherwise the zero-initialised `Participant` (empty name, number `0`,
`exists = false`). -/
def mappingLookup (l : List (Nat × Participant)) (a : Nat) : Participant :=
  match l.find? (fun kv => kv.1 == a) with
  | some kv => kv.2
  | none => ⟨"", 0, false⟩

/-- Reading `participants[a]`. -/
def participantLookup (s : RaffleState) (a : Nat) : Participant :=
  mappingLookup s.participants a

/-- `numberAssigned[n] = true`: mark key `n` as assigned. -/
def setTrue (l : List Nat) (n : Nat) : List Nat :=
  if n ∈ l then l else n :: l

/-- `numberAssigned[n] = false`: unmark key `n`. -/
def setFalse (l : List Nat) (n : Nat) : List Nat :=
  l.filter (fun m => m ≠ n)

/-- `delete participants[a]`: remove the key `a` from the mapping. -/
def eraseKey (l : List (Nat × Participant)) (a : Nat) : List (Nat × Participant) :=
  l.filter (fun kv => kv.1 ≠ a)

/-- `constructor() \x7b admin = msg.sender; \x7d` with all storage
zero-initialised. -/
def initialState (deployer : Nat) : RaffleState :=
  { admin := deployer
    participants := []
    assignedNumbers := []
    participantAddresses := []
    winnerAddresses := []
    winners := []
    numberAssigned := [] }

/-- The currently unassigned numbers of `[1, MAX_NUMBER]` in increasing
order: the "number pool" of the specification, and exactly the values the
populate loop of `_generateUniqueRandomNumber` writes, in the order it writes
them. -/
def numberPool (s : RaffleState) : List Nat :=
  (List.range' 1 MAX_NUMBER).filter (fun i => !(s.numberAssigned.contains i))

/-- The `availableNumbers` memory array built inside
`_generateUniqueRandomNumber`: an array of `MAX_NUMBER -
assignedNumbers.length` slots whose first slots receive the values of
`numberPool`, the remaining slots keeping their zero initialisation.  (Were
there more pool values than slots, the contract would revert on an
out-of-bounds write; that situation is unreachable, and the `take` keeps the
array at its declared length.) -/
def availableNumbersArray (s : RaffleState) : List Nat :=
  let size := MAX_NUMBER - s.assignedNumbers.length
  (numberPool s ++ List.replicate (size - (numberPool s).length) 0).take size

/-- `_generateUniqueRandomNumber()`: reduce the entropy word modulo the
declared length of `availableNumbers` and return the slot at that index. -/
def generateUniqueRandomNumber (s : RaffleState) (entropy : Nat) : Nat :=
  (availableNumbersArray s).getD (entropy % (MAX_NUMBER - s.assignedNumbers.length)) 0

/-- `enterRaffle(string memory _name)`. -/
def enterRaffle (s : RaffleState) (caller : Nat) (name : String) (entropy : Nat) :
    Except RaffleError RaffleState :=
  if (participantLookup s caller).exists_ then
    .error .AlreadyRegistered
  else if s.assignedNumbers.length < MAX_NUMBER then
    let randomNumber := generateUniqueRandomNumber s entropy
    .ok { s with
      participants := s.participants ++ [(caller, ⟨name, randomNumber, true⟩)]
      numberAssigned := setTrue s.numberAssigned randomNumber
      assignedNumbers := s.assignedNumbers ++ [randomNumber]
      participantAddresses := s.participantAddresses ++ [caller] }
  else
    .error .PoolExhausted

/-- The first loop of `drawWinner`: count the participants, in registration
order, whose address does not occur in `winnerAddresses` (the inner loop over
`winnerAddresses` is a membership test). -/
def countEligible (addrs winnerAddrs : List Nat) : Nat :=
  addrs.foldl (fun acc a => if winnerAddrs.contains a then acc else acc + 1) 0

/-- The second loop of `drawWinner`: walk the participants in registration
order, skip those occurring in `winnerAddrs`, and break with the current
address once `currentIndex` (started at `cur`) reaches `target`.  If the loop
finishes without breaking, the local `winnerAddress` keeps its default value,
the zero address. -/
def locateEligible (addrs winnerAddrs : List Nat) (target cur : Nat) : Nat :=
  match addrs with
  | [] => 0
  | a :: rest =>
    if winnerAddrs.contains a then locateEligible rest winnerAddrs target cur
    else if cur = target then a
    else locateEligible rest winnerAddrs target (cur + 1)

/-- `drawWinner()` (with the `onlyAdmin` modifier inlined as the first
check). -/
def drawWinner (s : RaffleState) (caller : Nat) (entropy : Nat) :
    Except RaffleError (RaffleState × WinnerInfo) :=
  if caller = s.admin then
    let eligibleCount := countEligible s.participantAddresses s.winnerAddresses
    if 0 < eligibleCount then
      let randomIndex := entropy % eligibleCount
      let winnerAddress := locateEligible s.participantAddresses s.winnerAddresses randomIndex 0
      let winner := participantLookup s winnerAddress
      let winnerInfo : WinnerInfo := ⟨winnerAddress, winner.name, winner.number⟩
      .ok ({ s with
        winnerAddresses := s.winnerAddresses ++ [winnerAddress]
        winners := s.winners ++ [winnerInfo] }, winnerInfo)
    else
      .error .NoEligibleParticipants
  else
    .error .Unauthorized

/-- `resetLottery()`: delete every `participants[participantAddresses[i]]`,
delete the four arrays, and set `numberAssigned[i] = false` for every
`i ∈ [1, MAX_NUMBER]`. -/
def resetLottery (s : RaffleState) (caller : Nat) : Except RaffleError RaffleState :=
  if caller = s.admin then
    .ok { admin := s.admin
          participants := s.participantAddresses.foldl eraseKey s.participants
          assignedNumbers := []
          participantAddresses := []
          winnerAddresses := []
          winners := []
          numberAssigned := (List.range' 1 MAX_NUMBER).foldl setFalse s.numberAssigned }
  else
    .error .Unauthorized

/-- `getParticipantInfo(address)`: the three components of the stored (or
zero-initialised) record; never errors. -/
def getParticipantInfo (s : RaffleState) (a : Nat) : String × Nat × Bool :=
  let p := participantLookup s a
  (p.name, p.number, p.exists_)

/-- The state after an `enterRaffle` transaction: the new state on success,
the unchanged state on revert. -/
def afterEnter (s : RaffleState) (caller : Nat) (name : String) (entropy : Nat) : RaffleState :=
  match enterRaffle s caller name entropy with
  | .ok s' => s'
  | .error _ => s

/-- The state after a `drawWinner` transaction. -/
def afterDraw (s : RaffleState) (caller : Nat) (entropy : Nat) : RaffleState :=
  match drawWinner s caller entropy with
  | .ok (s', _) => s'
  | .error _ => s

/-- The state after a `resetLottery` transaction. -/
def afterReset (s : RaffleState) (caller : Nat) : RaffleState :=
  match resetLottery s caller with
  | .ok s' => s'
  | .error _ => s

/-- The states reachable from a freshly deployed contract by any sequence of
`enterRaffle`, `drawWinner` and `resetLottery` transactions (failed
transactions leave the state unchanged). -/
inductive Reachable : RaffleState → Prop
  | init (deployer : Nat) : Reachable (initialState deployer)
  | enter {s : RaffleState} (caller : Nat) (name : String) (entropy : Nat) :
      Reachable s → Reachable (afterEnter s caller name entropy)
  | draw {s : RaffleState} (caller entropy : Nat) :
      Reachable s → Reachable (afterDraw s caller entropy)
  | reset {s : RaffleState} (caller : Nat) :
      Reachable s → Reachable (afterReset s caller)

/-- The eligible participants — registered addresses not yet in
`winnerAddresses` — in original registration order (spec §4.2). -/
def eligibleList (s : RaffleState) : List Nat :=
  s.participantAddresses.filter (fun a => !(s.winnerAddresses.contains a))

/-- The address selected by the two scan loops of `drawWinner` for a given
entropy word. -/
def drawnAddress (s : RaffleState) (e : Nat) : Nat :=
  locateEligible s.participantAddresses s.winnerAddresses
    (e % countEligible s.participantAddresses s.winnerAddresses) 0

/-- A sample state: deployer `0`, then participant `1` ("Alice") registers
with entropy `0` (receiving number `1`). -/
def demoA : RaffleState := afterEnter (initialState 0) 1 "Alice" 0

/-- `demoA` after the admin (address `0`) draws a winner with entropy `0`. -/
def demoDrawn : RaffleState := afterDraw demoA 0 0

/-- The contract after one hundred successful registrations (identities `1`
to `100`), which exhausts the number pool. -/
def demoFull : RaffleState :=
  (List.range' 1 MAX_NUMBER).foldl (fun s c => afterEnter s c ("") 0) (initialState 0)

/-! ## Lemmas about the association-list mapping -/

theorem mappingLookup_append_of_ne (l : List (Nat × Participant)) (c : Nat) (p : Participant)
    (a : Nat) (h : a ≠ c) : mappingLookup (l ++ [(c, p)]) a = mappingLookup l a := by
  unfold mappingLookup
  rw [List.find?_append]
  cases hf : l.find? (fun kv => kv.1 == a) with
  | some kv => rfl
  | none =>
    have : ((c, p).1 == a) = false := by simpa using fun hca => h hca.symm
    simp [List.find?, this]

theorem find?_eq_none_of_not_exists (l : List (Nat × Participant)) (a : Nat)
    (hst : ∀ kv ∈ l, kv.2.exists_ = true)
    (h : (mappingLookup l a).exists_ = false) :
    l.find? (fun kv => kv.1 == a) = none := by
  cases hf : l.find? (fun kv => kv.1 == a) with
  | none => rfl
  | some kv =>
    have hm := List.mem_of_find?_eq_some hf
    have ht := hst kv hm
    unfold mappingLookup at h
    rw [hf] at h
    rw [ht] at h
    exact absurd h (by simp)

theorem mappingLookup_append_self (l : List (Nat × Participant)) (c : Nat) (p : Participant)
    (h : l.find? (fun kv => kv.1 == c) = none) :
    mappingLookup (l ++ [(c, p)]) c = p := by
  unfold mappingLookup
  rw [List.find?_append, h]
  simp [List.find?]

theorem mappingLookup_default_of_find?_none (l : List (Nat × Participant)) (a : Nat)
    (h : l.find? (fun kv => kv.1 == a) = none) :
    mappingLookup l a = ⟨"", 0, false⟩ := by
  unfold mappingLookup
  rw [h]

/-! ## The delete loops of `resetLottery` -/

theorem foldl_eraseKey_eq_filter (addrs : List Nat) (l : List (Nat × Participant)) :
    addrs.foldl eraseKey l = l.filter (fun kv => !(addrs.contains kv.1)) := by
  induction addrs generalizing l with
  | nil => simp
  | cons a as ih =>
    simp only [List.foldl_cons]
    rw [ih]
    unfold eraseKey
    rw [List.filter_filter]
    congr 1
    funext kv
    by_cases hk : kv.1 = a <;> simp [hk, List.contains_cons]

theorem foldl_setFalse_eq_filter (r l : List Nat) :
    r.foldl setFalse l = l.filter (fun n => !(r.contains n)) := by
  induction r generalizing l with
  | nil => simp
  | cons a as ih =>
    simp only [List.foldl_cons]
    rw [ih]
    unfold setFalse
    rw [List.filter_filter]
    congr 1
    funext n
    by_cases hk : n = a <;> simp [hk, List.contains_cons]

/-! ## The two scan loops of `drawWinner` -/

theorem countEligible_go (winnerAddrs : List Nat) :
    ∀ (addrs : List Nat) (acc : Nat),
      addrs.foldl (fun acc a => if winnerAddrs.contains a then acc else acc + 1) acc =
        acc + (addrs.filter (fun a => !(winnerAddrs.contains a))).length := by
  intro addrs
  induction addrs with
  | nil => intro acc; simp
  | cons a rest ih =>
    intro acc
    rw [List.foldl_cons]
    by_cases hw : winnerAddrs.contains a
    · rw [if_pos hw, ih, List.filter_cons_of_neg (by simpa using hw)]
    · rw [if_neg hw, ih, List.filter_cons_of_pos (by simpa using hw)]
      rw [List.length_cons]
      omega

theorem countEligible_eq (addrs winnerAddrs : List Nat) :
    countEligible addrs winnerAddrs =
      (addrs.filter (fun a => !(winnerAddrs.contains a))).length := by
  unfold countEligible
  rw [countEligible_go]
  omega

theorem locateEligible_eq (winnerAddrs : List Nat) :
    ∀ (addrs : List Nat) (target cur : Nat), cur ≤ target →
      locateEligible addrs winnerAddrs target cur =
        (addrs.filter (fun a => !(winnerAddrs.contains a))).getD (target - cur) 0 := by
  intro addrs
  induction addrs with
  | nil => intro t c _; simp [locateEligible]
  | cons a rest ih =>
    intro t c hct
    by_cases hw : winnerAddrs.contains a
    · rw [locateEligible, if_pos hw, ih t c hct, List.filter_cons_of_neg (by simpa using hw)]
    · by_cases hc : c = t
      · subst hc
        rw [locateEligible, if_neg hw, if_pos rfl, List.filter_cons_of_pos (by simpa using hw),
          Nat.sub_self, List.getD_cons_zero]
      · have hlt : c + 1 ≤ t := Nat.lt_of_le_of_ne hct hc
        have hsub : t - c = (t - (c + 1)) + 1 := by omega
        rw [locateEligible, if_neg hw, if_neg hc, ih t (c + 1) hlt,
          List.filter_cons_of_pos (by simpa using hw), hsub, List.getD_cons_succ]

/-! ## Counting the number pool -/

theorem length_filter_add_length_filter_not (p : Nat → Bool) (r : List Nat) :
    (r.filter p).length + (r.filter (fun i => !(p i))).length = r.length := by
  induction r with
  | nil => rfl
  | cons a rest ih =>
    by_cases h : p a
    · rw [List.filter_cons_of_pos h, List.filter_cons_of_neg (by simp [h]), List.length_cons,
        List.length_cons]
      omega
    · rw [List.filter_cons_of_neg h, List.filter_cons_of_pos (by simp_all), List.length_cons,
        List.length_cons]
      omega

theorem length_eq_of_nodup_of_mem_iff {l₁ l₂ : List Nat} (h₁ : l₁.Nodup) (h₂ : l₂.Nodup)
    (h : ∀ n, n ∈ l₁ ↔ n ∈ l₂) : l₁.length = l₂.length :=
  (List.perm_ext_iff_of_nodup h₁ h₂ |>.mpr h).length_eq

theorem numberPool_length (s : RaffleState) (hm : s.numberAssigned.Nodup)
    (hrange : ∀ n ∈ s.numberAssigned, 1 ≤ n ∧ n ≤ MAX_NUMBER) :
    (numberPool s).length + s.numberAssigned.length = MAX_NUMBER := by
  unfold numberPool
  have hr : (List.range' 1 MAX_NUMBER).Nodup := List.nodup_range' 1 MAX_NUMBER
  have hfil : ((List.range' 1 MAX_NUMBER).filter (fun i => s.numberAssigned.contains i)).length
      = s.numberAssigned.length := by
    apply length_eq_of_nodup_of_mem_iff (hr.filter _) hm
    intro n
    rw [List.mem_filter]
    constructor
    · rintro ⟨-, hc⟩
      simpa using hc
    · intro hn
      refine ⟨?_, by simpa using hn⟩
      have := hrange n hn
      rw [List.mem_range'_1]
      omega
  have hsplit := length_filter_add_length_filter_not
    (fun i => s.numberAssigned.contains i) (List.range' 1 MAX_NUMBER)
  rw [List.length_range'] at hsplit
  omega

theorem mem_numberPool (s : RaffleState) (n : Nat) :
    n ∈ numberPool s ↔ (1 ≤ n ∧ n ≤ MAX_NUMBER) ∧ n ∉ s.numberAssigned := by
  unfold numberPool
  rw [List.mem_filter, List.mem_range'_1]
  constructor
  · rintro ⟨hr, hc⟩
    exact ⟨⟨by omega, by omega⟩, by simpa using hc⟩
  · rintro ⟨⟨h1, h2⟩, hc⟩
    exact ⟨by omega, by simpa using hc⟩

/-! ## The generated number is a fresh pool number -/

theorem availableNumbersArray_eq_pool (s : RaffleState)
    (hlen : (numberPool s).length = MAX_NUMBER - s.assignedNumbers.length) :
    availableNumbersArray s = numberPool s := by
  simp only [availableNumbersArray]
  rw [hlen, Nat.sub_self, List.replicate_zero, List.append_nil, ← hlen, List.take_length]

theorem generateUniqueRandomNumber_mem (s : RaffleState)
    (hlen : (numberPool s).length = MAX_NUMBER - s.assignedNumbers.length)
    (hpos : s.assignedNumbers.length < MAX_NUMBER) (e : Nat) :
    generateUniqueRandomNumber s e ∈ numberPool s := by
  unfold generateUniqueRandomNumber
  rw [availableNumbersArray_eq_pool s hlen]
  have hidx : e % (MAX_NUMBER - s.assignedNumbers.length) < (numberPool s).length := by
    rw [hlen]
    exact Nat.mod_lt _ (by omega)
  rw [List.getD_eq_getElem _ _ hidx]
  exact List.getElem_mem hidx

/-! ## The state invariant -/

/-- The inductive invariant of the contract, preserved by every
transaction. -/
structure RaffleInv (s : RaffleState) : Prop where
  assignedNodup : s.assignedNumbers.Nodup
  assignedRange : ∀ n ∈ s.assignedNumbers, 1 ≤ n ∧ n ≤ MAX_NUMBER
  markedNodup : s.numberAssigned.Nodup
  markedIff : ∀ n, n ∈ s.numberAssigned ↔ n ∈ s.assignedNumbers
  addrNodup : s.participantAddresses.Nodup
  keysEq : s.participants.map Prod.fst = s.participantAddresses
  storedExists : ∀ kv ∈ s.participants, kv.2.exists_ = true
  existsIff : ∀ a, (participantLookup s a).exists_ = true ↔ a ∈ s.participantAddresses
  numbersEq :
    s.participantAddresses.map (fun a => (participantLookup s a).number) = s.assignedNumbers
  winnersNodup : s.winnerAddresses.Nodup
  winnersSub : ∀ a ∈ s.winnerAddresses, a ∈ s.participantAddresses
  winnersMapEq : s.winners.map WinnerInfo.winnerAddress = s.winnerAddresses

theorem RaffleInv.markedLen {s : RaffleState} (h : RaffleInv s) :
    s.numberAssigned.length = s.assignedNumbers.length :=
  length_eq_of_nodup_of_mem_iff h.markedNodup h.assignedNodup h.markedIff

theorem RaffleInv.poolLen {s : RaffleState} (h : RaffleInv s) :
    (numberPool s).length = MAX_NUMBER - s.assignedNumbers.length := by
  have h1 := numberPool_length s h.markedNodup
    (fun n hn => h.assignedRange n ((h.markedIff n).mp hn))
  have h2 := h.markedLen
  omega

theorem RaffleInv.assignedLe {s : RaffleState} (h : RaffleInv s) :
    s.assignedNumbers.length ≤ MAX_NUMBER := by
  have h1 := numberPool_length s h.markedNodup
    (fun n hn => h.assignedRange n ((h.markedIff n).mp hn))
  have h2 := h.markedLen
  omega

theorem inv_init (d : Nat) : RaffleInv (initialState d) := by
  constructor <;> simp [initialState, participantLookup, mappingLookup]

/-! ## `enterRaffle`: success characterisation and invariant preservation -/

theorem enterRaffle_ok_iff (s : RaffleState) (c : Nat) (n : String) (e : Nat)
    (s' : RaffleState) :
    enterRaffle s c n e = .ok s' ↔
      (participantLookup s c).exists_ = false ∧ s.assignedNumbers.length < MAX_NUMBER ∧
      s' = { s with
        participants := s.participants ++ [(c, ⟨n, generateUniqueRandomNumber s e, true⟩)]
        numberAssigned := setTrue s.numberAssigned (generateUniqueRandomNumber s e)
        assignedNumbers := s.assignedNumbers ++ [generateUniqueRandomNumber s e]
        participantAddresses := s.participantAddresses ++ [c] } := by
  unfold enterRaffle
  by_cases h1 : (participantLookup s c).exists_ = true
  · simp [h1]
  · by_cases h2 : s.assignedNumbers.length < MAX_NUMBER
    · simp only [h1, if_false, Bool.not_eq_true] at *
      simp [h1, h2, eq_comm]
    · simp only [Bool.not_eq_true] at h1
      simp [h1, h2]

theorem inv_enter (s s' : RaffleState) (c : Nat) (n : String) (e : Nat)
    (h : RaffleInv s) (heq : enterRaffle s c n e = .ok s') : RaffleInv s' := by
  rw [enterRaffle_ok_iff] at heq
  obtain ⟨hex, hlen, rfl⟩ := heq
  have hmem : generateUniqueRandomNumber s e ∈ numberPool s :=
    generateUniqueRandomNumber_mem s h.poolLen hlen e
  rw [mem_numberPool] at hmem
  obtain ⟨⟨hn1, hn2⟩, hfresh⟩ := hmem
  have hfreshA : generateUniqueRandomNumber s e ∉ s.assignedNumbers :=
    fun hc => hfresh ((h.markedIff _).mpr hc)
  have hcadr : c ∉ s.participantAddresses := by
    intro hc
    have h2 := (h.existsIff c).mpr hc
    rw [hex] at h2
    exact absurd h2 (by simp)
  have hfind : s.participants.find? (fun kv => kv.1 == c) = none :=
    find?_eq_none_of_not_exists _ _ h.storedExists hex
  constructor
  · rw [List.nodup_append]
    refine ⟨h.assignedNodup, List.nodup_singleton _, ?_⟩
    intro x hx hx1
    rw [List.mem_singleton] at hx1
    subst hx1
    exact hfreshA hx
  · intro m hm
    rw [List.mem_append, List.mem_singleton] at hm
    rcases hm with hm | rfl
    · exact h.assignedRange m hm
    · exact ⟨hn1, hn2⟩
  · unfold setTrue
    rw [if_neg hfresh]
    exact List.nodup_cons.mpr ⟨hfresh, h.markedNodup⟩
  · intro m
    unfold setTrue
    rw [if_neg hfresh]
    simp only [List.mem_cons, List.mem_append, List.mem_singleton, h.markedIff m]
    tauto
  · rw [List.nodup_append]
    refine ⟨h.addrNodup, List.nodup_singleton _, ?_⟩
    intro x hx hx1
    rw [List.mem_singleton] at hx1
    subst hx1
    exact hcadr hx
  · simp [h.keysEq]
  · intro kv hkv
    rw [List.mem_append, List.mem_singleton] at hkv
    rcases hkv with hkv | rfl
    · exact h.storedExists kv hkv
    · rfl
  · intro a
    simp only [participantLookup]
    by_cases hac : a = c
    · subst hac
      rw [mappingLookup_append_self _ _ _ hfind]
      simp
    · rw [mappingLookup_append_of_ne _ _ _ _ hac]
      have hiff := h.existsIff a
      simp only [participantLookup] at hiff
      rw [hiff, List.mem_append, List.mem_singleton]
      simp [hac]
  · simp only [participantLookup]
    rw [List.map_append]
    have hsame : ∀ a ∈ s.participantAddresses,
        (mappingLookup (s.participants ++ [(c, ⟨n, generateUniqueRandomNumber s e, true⟩)]) a).number
          = (participantLookup s a).number := by
      intro a ha
      have hne : a ≠ c := fun hh => hcadr (hh ▸ ha)
      rw [mappingLookup_append_of_ne _ _ _ _ hne]
      rfl
    rw [List.map_congr_left hsame, h.numbersEq]
    simp [mappingLookup_append_self _ _ _ hfind]
  · exact h.winnersNodup
  · intro a ha
    exact List.mem_append_left _ (h.winnersSub a ha)
  · exact h.winnersMapEq

/-! ## `drawWinner`: success characterisation and invariant preservation -/

theorem countEligible_eq_eligibleList (s : RaffleState) :
    countEligible s.participantAddresses s.winnerAddresses = (eligibleList s).length := by
  rw [countEligible_eq]
  rfl

theorem drawWinner_ok_iff (s : RaffleState) (c e : Nat) (s' : RaffleState) (w : WinnerInfo) :
    drawWinner s c e = .ok (s', w) ↔
      c = s.admin ∧ 0 < countEligible s.participantAddresses s.winnerAddresses ∧
      w = ⟨drawnAddress s e, (participantLookup s (drawnAddress s e)).name,
           (participantLookup s (drawnAddress s e)).number⟩ ∧
      s' = { s with winnerAddresses := s.winnerAddresses ++ [drawnAddress s e]
                    winners := s.winners ++ [w] } := by
  unfold drawnAddress
  constructor
  · intro heq
    simp only [drawWinner] at heq
    split at heq
    case isTrue h1 =>
      split at heq
      case isTrue h2 =>
        rw [Except.ok.injEq, Prod.mk.injEq] at heq
        obtain ⟨hA, hB⟩ := heq
        subst hB
        subst hA
        exact ⟨h1, h2, rfl, rfl⟩
      case isFalse h2 => exact absurd heq (by simp)
    case isFalse h1 => exact absurd heq (by simp)
  · rintro ⟨h1, h2, rfl, rfl⟩
    simp only [drawWinner]
    rw [if_pos h1, if_pos h2]

theorem drawWinner_noEligible (s : RaffleState) (c e : Nat) (h1 : c = s.admin)
    (h2 : countEligible s.participantAddresses s.winnerAddresses = 0) :
    drawWinner s c e = .error .NoEligibleParticipants := by
  simp only [drawWinner]
  rw [if_pos h1, if_neg (by omega)]

theorem drawWinner_unauthorized (s : RaffleState) (c e : Nat) (h : c ≠ s.admin) :
    drawWinner s c e = .error .Unauthorized := by
  simp only [drawWinner]
  rw [if_neg h]

theorem resetLottery_unauthorized (s : RaffleState) (c : Nat) (h : c ≠ s.admin) :
    resetLottery s c = .error .Unauthorized := by
  simp only [resetLottery]
  rw [if_neg h]

theorem enterRaffle_already (s : RaffleState) (c : Nat) (n : String) (e : Nat)
    (hex : (participantLookup s c).exists_ = true) :
    enterRaffle s c n e = .error .AlreadyRegistered := by
  unfold enterRaffle
  rw [if_pos hex]

theorem enterRaffle_poolExhausted (s : RaffleState) (c : Nat) (n : String) (e : Nat)
    (hex : (participantLookup s c).exists_ = false)
    (hfull : ¬ s.assignedNumbers.length < MAX_NUMBER) :
    enterRaffle s c n e = .error .PoolExhausted := by
  unfold enterRaffle
  rw [if_neg (by simp [hex]), if_neg hfull]

theorem drawnAddress_getElem (s : RaffleState) (e : Nat)
    (hpos : 0 < (eligibleList s).length) :
    (eligibleList s)[e % (eligibleList s).length]? = some (drawnAddress s e) := by
  unfold drawnAddress
  rw [countEligible_eq_eligibleList]
  simp only [eligibleList]
  rw [locateEligible_eq _ _ _ _ (Nat.zero_le _), Nat.sub_zero]
  have hidx : e % (eligibleList s).length < (eligibleList s).length := Nat.mod_lt _ hpos
  simp only [eligibleList] at hidx
  rw [List.getD_eq_getElem _ _ hidx, List.getElem?_eq_getElem hidx]

theorem drawnAddress_mem (s : RaffleState) (e : Nat)
    (hpos : 0 < (eligibleList s).length) :
    drawnAddress s e ∈ eligibleList s := by
  have h := drawnAddress_getElem s e hpos
  have hidx : e % (eligibleList s).length < (eligibleList s).length := Nat.mod_lt _ hpos
  rw [List.getElem?_eq_getElem hidx] at h
  rw [← Option.some.inj h]
  exact List.getElem_mem hidx

theorem inv_draw (s s' : RaffleState) (c e : Nat) (w : WinnerInfo)
    (h : RaffleInv s) (heq : drawWinner s c e = .ok (s', w)) : RaffleInv s' := by
  rw [drawWinner_ok_iff] at heq
  obtain ⟨h1, h2, rfl, rfl⟩ := heq
  have hpos : 0 < (eligibleList s).length := by rwa [countEligible_eq_eligibleList] at h2
  have hmem := drawnAddress_mem s e hpos
  unfold eligibleList at hmem
  rw [List.mem_filter] at hmem
  obtain ⟨haddr, hnw⟩ := hmem
  have hnotwin : drawnAddress s e ∉ s.winnerAddresses := by simpa using hnw
  constructor
  · exact h.assignedNodup
  · exact h.assignedRange
  · exact h.markedNodup
  · exact h.markedIff
  · exact h.addrNodup
  · exact h.keysEq
  · exact h.storedExists
  · exact h.existsIff
  · exact h.numbersEq
  · rw [List.nodup_append]
    refine ⟨h.winnersNodup, List.nodup_singleton _, ?_⟩
    intro x hx hx1
    rw [List.mem_singleton] at hx1
    subst hx1
    exact hnotwin hx
  · intro a ha
    rw [List.mem_append, List.mem_singleton] at ha
    rcases ha with ha | rfl
    · exact h.winnersSub a ha
    · exact haddr
  · rw [List.map_append, h.winnersMapEq]
    rfl

/-! ## `resetLottery`: effect and invariant preservation -/

theorem resetLottery_ok (s : RaffleState) (h : RaffleInv s) :
    resetLottery s s.admin = .ok (initialState s.admin) := by
  have hp : s.participantAddresses.foldl eraseKey s.participants = [] := by
    rw [foldl_eraseKey_eq_filter, List.filter_eq_nil_iff]
    intro kv hkv
    have hk : kv.1 ∈ s.participantAddresses := by
      rw [← h.keysEq]
      exact List.mem_map_of_mem _ hkv
    simp [hk]
  have hm : (List.range' 1 MAX_NUMBER).foldl setFalse s.numberAssigned = [] := by
    rw [foldl_setFalse_eq_filter, List.filter_eq_nil_iff]
    intro m hmm
    have hb := h.assignedRange m ((h.markedIff m).mp hmm)
    have hr : m ∈ List.range' 1 MAX_NUMBER := by
      rw [List.mem_range'_1]
      omega
    simp [hr]
  unfold resetLottery
  rw [if_pos rfl, hp, hm]
  rfl

theorem inv_reset (s s' : RaffleState) (c : Nat) (h : RaffleInv s)
    (heq : resetLottery s c = .ok s') : RaffleInv s' := by
  by_cases hc : c = s.admin
  · subst hc
    have hok := resetLottery_ok s h
    rw [hok] at heq
    rw [← Except.ok.inj heq]
    exact inv_init s.admin
  · rw [resetLottery_unauthorized s c hc] at heq
    exact absurd heq (by simp)

/-! ## Every reachable state satisfies the invariant -/

theorem reachable_inv {s : RaffleState} (h : Reachable s) : RaffleInv s := by
  induction h with
  | init d => exact inv_init d
  | enter c n e hr ih =>
    rename_i t
    unfold afterEnter
    cases heq : enterRaffle t c n e with
    | ok s' => exact inv_enter t s' c n e ih heq
    | error err => exact ih
  | draw c e hr ih =>
    rename_i t
    unfold afterDraw
    cases heq : drawWinner t c e with
    | ok p => exact inv_draw t p.1 c e p.2 ih (by rw [heq])
    | error err => exact ih
  | reset c hr ih =>
    rename_i t
    unfold afterReset
    cases heq : resetLottery t c with
    | ok s' => exact inv_reset t s' c ih heq
    | error err => exact ih

/-! ## Reachability of the sample states -/

theorem reachable_demoA : Reachable demoA :=
  Reachable.enter 1 "Alice" 0 (Reachable.init 0)

theorem reachable_demoDrawn : Reachable demoDrawn :=
  Reachable.draw 0 0 reachable_demoA

theorem reachable_foldEnter (l : List Nat) (s : RaffleState) (h : Reachable s) :
    Reachable (l.foldl (fun s c => afterEnter s c ("") 0) s) := by
  induction l generalizing s with
  | nil => exact h
  | cons a as ih => exact ih _ (Reachable.enter a ("") 0 h)

theorem reachable_demoFull : Reachable demoFull :=
  reachable_foldEnter _ _ (Reachable.init 0)

/-! ## The claims -/

/-- C1: after every sequence of operations starting from the freshly created
engine, the assigned numbers are pairwise distinct, every assigned number
lies in `[1, MAX_NUMBER]`, the participant records carry exactly those
numbers, and the count of assigned numbers equals the count of participant
records and equals `MAX_NUMBER` minus the size of the unassigned number
pool. -/
theorem spec_C1 (s : RaffleState) (h : Reachable s) :
    s.assignedNumbers.Nodup ∧
    (∀ n ∈ s.assignedNumbers, 1 ≤ n ∧ n ≤ MAX_NUMBER) ∧
    s.participantAddresses.map (fun a => (participantLookup s a).number) = s.assignedNumbers ∧
    s.assignedNumbers.length = s.participants.length ∧
    s.assignedNumbers.length = MAX_NUMBER - (numberPool s).length := by
  have hi := reachable_inv h
  refine ⟨hi.assignedNodup, hi.assignedRange, hi.numbersEq, ?_, ?_⟩
  · have h1 := congrArg List.length hi.numbersEq
    rw [List.length_map] at h1
    have h2 := congrArg List.length hi.keysEq
    rw [List.length_map] at h2
    omega
  · have h1 := hi.poolLen
    have h2 := hi.assignedLe
    omega

/-- Witness for C1 at the concrete reachable state `demoA`. -/
theorem spec_C1_witness :
    demoA.assignedNumbers.Nodup ∧
    (∀ n ∈ demoA.assignedNumbers, 1 ≤ n ∧ n ≤ MAX_NUMBER) ∧
    demoA.participantAddresses.map (fun a => (participantLookup demoA a).number)
      = demoA.assignedNumbers ∧
    demoA.assignedNumbers.length = demoA.participants.length ∧
    demoA.assignedNumbers.length = MAX_NUMBER - (numberPool demoA).length :=
  spec_C1 demoA reachable_demoA

/-- C2: in every reachable state the winner sequence holds pairwise-distinct
identities, a successful `drawWinner` selects an identity not already in the
winner sequence, and once every participant has won, every further
`drawWinner` call by the admin fails with `NoEligibleParticipants`. -/
theorem spec_C2 (s : RaffleState) (h : Reachable s) :
    (s.winners.map WinnerInfo.winnerAddress).Nodup ∧
    (∀ c e s' w, drawWinner s c e = .ok (s', w) →
      w.winnerAddress ∉ s.winners.map WinnerInfo.winnerAddress) ∧
    (∀ e, (∀ a ∈ s.participantAddresses, a ∈ s.winnerAddresses) →
      drawWinner s s.admin e = .error .NoEligibleParticipants) := by
  have hi := reachable_inv h
  refine ⟨?_, ?_, ?_⟩
  · rw [hi.winnersMapEq]
    exact hi.winnersNodup
  · intro c e s' w heq
    rw [drawWinner_ok_iff] at heq
    obtain ⟨h1, h2, rfl, hs⟩ := heq
    rw [hi.winnersMapEq]
    have hpos : 0 < (eligibleList s).length := by rwa [countEligible_eq_eligibleList] at h2
    have hmem := drawnAddress_mem s e hpos
    unfold eligibleList at hmem
    rw [List.mem_filter] at hmem
    simpa using hmem.2
  · intro e hall
    apply drawWinner_noEligible s s.admin e rfl
    rw [countEligible_eq_eligibleList]
    have hnil : eligibleList s = [] := by
      unfold eligibleList
      rw [List.filter_eq_nil_iff]
      intro a ha
      simp [hall a ha]
    rw [hnil]
    rfl

/-- Witness for C2 at the concrete reachable state `demoDrawn`, in which the
single participant has already won. -/
theorem spec_C2_witness :
    (demoDrawn.winners.map WinnerInfo.winnerAddress).Nodup ∧
    (∀ c e s' w, drawWinner demoDrawn c e = .ok (s', w) →
      w.winnerAddress ∉ demoDrawn.winners.map WinnerInfo.winnerAddress) ∧
    (∀ e, (∀ a ∈ demoDrawn.participantAddresses, a ∈ demoDrawn.winnerAddresses) →
      drawWinner demoDrawn demoDrawn.admin e = .error .NoEligibleParticipants) :=
  spec_C2 demoDrawn reachable_demoDrawn

/-- C3: when the caller is the operator and at least one eligible participant
exists, `drawWinner` selects the `(entropy % eligibleCount)`-th eligible
participant in original registration order, appends its record to the winner
sequence and returns it; with no eligible participant it fails with
`NoEligibleParticipants`. -/
theorem spec_C3 (s : RaffleState) (c e : Nat) (hc : c = s.admin) :
    (0 < (eligibleList s).length →
      ∃ a, (eligibleList s)[e % (eligibleList s).length]? = some a ∧
        drawWinner s c e = .ok
          ({ s with winnerAddresses := s.winnerAddresses ++ [a]
                    winners := s.winners ++
                      [⟨a, (participantLookup s a).name, (participantLookup s a).number⟩] },
           ⟨a, (participantLookup s a).name, (participantLookup s a).number⟩)) ∧
    ((eligibleList s).length = 0 → drawWinner s c e = .error .NoEligibleParticipants) := by
  constructor
  · intro hpos
    refine ⟨drawnAddress s e, drawnAddress_getElem s e hpos, ?_⟩
    rw [drawWinner_ok_iff]
    exact ⟨hc, by rwa [countEligible_eq_eligibleList], rfl, rfl⟩
  · intro h0
    exact drawWinner_noEligible s c e hc (by rwa [countEligible_eq_eligibleList])

/-- Witness for C3: in `demoA` the admin's draw with entropy `0` picks the
eligible participant at index `0` in registration order. -/
theorem spec_C3_witness :
    ∃ a, (eligibleList demoA)[0 % (eligibleList demoA).length]? = some a ∧
      drawWinner demoA 0 0 = .ok
        ({ demoA with winnerAddresses := demoA.winnerAddresses ++ [a]
                      winners := demoA.winners ++
                        [⟨a, (participantLookup demoA a).name, (participantLookup demoA a).number⟩] },
         ⟨a, (participantLookup demoA a).name, (participantLookup demoA a).number⟩) :=
  (spec_C3 demoA 0 0 (by decide)).1 (by decide)

set_option maxRecDepth 40000

/-- C4 counterexample: in the reachable state `demoFull` all `MAX_NUMBER`
numbers are assigned, yet the registration attempt of the already-registered
identity `1` fails with `AlreadyRegistered` — not with `PoolExhausted` as the
claim, read literally, requires for every registration in a pool-exhausted
state. -/
theorem spec_C4_counterexample :
    Reachable demoFull ∧
    demoFull.assignedNumbers.length = MAX_NUMBER ∧
    enterRaffle demoFull 1 "Bob" 0 = .error .AlreadyRegistered :=
  ⟨reachable_demoFull, by rfl, by rfl⟩

/-- C4 (amended): `enter` fails with `AlreadyRegistered` whenever the caller
already has a participant record; it fails with `PoolExhausted` whenever the
caller has no record and all `MAX_NUMBER` numbers are assigned (the
duplicate-registration check is performed first); in either failure case the
engine state is completely unchanged. -/
theorem spec_C4 (s : RaffleState) (c : Nat) (n : String) (e : Nat) :
    ((participantLookup s c).exists_ = true →
      enterRaffle s c n e = .error .AlreadyRegistered ∧ afterEnter s c n e = s) ∧
    ((participantLookup s c).exists_ = false → s.assignedNumbers.length = MAX_NUMBER →
      enterRaffle s c n e = .error .PoolExhausted ∧ afterEnter s c n e = s) := by
  constructor
  · intro hex
    have h1 := enterRaffle_already s c n e hex
    refine ⟨h1, ?_⟩
    unfold afterEnter
    rw [h1]
  · intro hex hfull
    have h1 := enterRaffle_poolExhausted s c n e hex (by omega)
    refine ⟨h1, ?_⟩
    unfold afterEnter
    rw [h1]

/-- Witness for C4 at `demoFull`: the registered identity `1` is refused as a
duplicate, and the fresh identity `101` is refused because the pool is
exhausted; neither attempt changes the state. -/
theorem spec_C4_witness :
    (enterRaffle demoFull 1 "Bob" 1 = .error .AlreadyRegistered ∧
      afterEnter demoFull 1 "Bob" 1 = demoFull) ∧
    (enterRaffle demoFull 101 "Carol" 0 = .error .PoolExhausted ∧
      afterEnter demoFull 101 "Carol" 0 = demoFull) :=
  ⟨(spec_C4 demoFull 1 "Bob" 1).1 (by decide),
   (spec_C4 demoFull 101 "Carol" 0).2 (by decide) (by decide)⟩

/-- C5: from every reachable state, a reset by the operator succeeds and
leaves a state with no participant records, an empty participant list, an
empty winner sequence, no number-assignment markers, the full number pool
`[1, MAX_NUMBER]`, and the same operator identity. -/
theorem spec_C5 (s : RaffleState) (h : Reachable s) :
    ∃ r, resetLottery s s.admin = .ok r ∧
      r.participants = [] ∧ r.participantAddresses = [] ∧
      r.winners = [] ∧ r.winnerAddresses = [] ∧
      r.assignedNumbers = [] ∧ r.numberAssigned = [] ∧
      numberPool r = List.range' 1 MAX_NUMBER ∧
      r.admin = s.admin := by
  refine ⟨initialState s.admin, resetLottery_ok s (reachable_inv h),
    rfl, rfl, rfl, rfl, rfl, rfl, ?_, rfl⟩
  unfold numberPool initialState
  simp

/-- Witness for C5 at the concrete reachable state `demoDrawn`. -/
theorem spec_C5_witness :
    ∃ r, resetLottery demoDrawn demoDrawn.admin = .ok r ∧
      r.participants = [] ∧ r.participantAddresses = [] ∧
      r.winners = [] ∧ r.winnerAddresses = [] ∧
      r.assignedNumbers = [] ∧ r.numberAssigned = [] ∧
      numberPool r = List.range' 1 MAX_NUMBER ∧
      r.admin = demoDrawn.admin :=
  spec_C5 demoDrawn reachable_demoDrawn

/-- C6: reset is idempotent in effect — from every reachable state, the
operator's reset yields a state that a second reset maps to itself, with the
operator identity unchanged. -/
theorem spec_C6 (s : RaffleState) (h : Reachable s) :
    ∃ r, resetLottery s s.admin = .ok r ∧
      resetLottery r r.admin = .ok r ∧
      r.admin = s.admin := by
  refine ⟨initialState s.admin, resetLottery_ok s (reachable_inv h), ?_, rfl⟩
  exact resetLottery_ok (initialState s.admin) (inv_init s.admin)

/-- Witness for C6 at the concrete reachable state `demoA`. -/
theorem spec_C6_witness :
    ∃ r, resetLottery demoA demoA.admin = .ok r ∧
      resetLottery r r.admin = .ok r ∧
      r.admin = demoA.admin :=
  spec_C6 demoA reachable_demoA

/-- C7: for every state and every caller different from the operator, both
`drawWinner` and `resetLottery` fail with `Unauthorized` and the state is
unchanged. -/
theorem spec_C7 (s : RaffleState) (c e : Nat) (hc : c ≠ s.admin) :
    drawWinner s c e = .error .Unauthorized ∧
    resetLottery s c = .error .Unauthorized ∧
    afterDraw s c e = s ∧
    afterReset s c = s := by
  have h1 := drawWinner_unauthorized s c e hc
  have h2 := resetLottery_unauthorized s c hc
  refine ⟨h1, h2, ?_, ?_⟩
  · unfold afterDraw
    rw [h1]
  · unfold afterReset
    rw [h2]

/-- Witness for C7: the non-operator identity `5` can neither draw nor reset
in `demoA`. -/
theorem spec_C7_witness :
    drawWinner demoA 5 0 = .error .Unauthorized ∧
    resetLottery demoA 5 = .error .Unauthorized ∧
    afterDraw demoA 5 0 = demoA ∧
    afterReset demoA 5 = demoA :=
  spec_C7 demoA 5 0 (by decide)

/-- C8: a successful `drawWinner` call appends exactly one entry to the
winner sequence (and the matching address to `winnerAddresses`) and changes
nothing else: participant records, participant list, assigned numbers,
assignment markers, number pool and operator identity are untouched. -/
theorem spec_C8 (s : RaffleState) (c e : Nat) (s' : RaffleState) (w : WinnerInfo)
    (heq : drawWinner s c e = .ok (s', w)) :
    s'.winners = s.winners ++ [w] ∧
    s'.winnerAddresses = s.winnerAddresses ++ [w.winnerAddress] ∧
    s'.participants = s.participants ∧
    s'.participantAddresses = s.participantAddresses ∧
    s'.assignedNumbers = s.assignedNumbers ∧
    s'.numberAssigned = s.numberAssigned ∧
    numberPool s' = numberPool s ∧
    s'.admin = s.admin := by
  rw [drawWinner_ok_iff] at heq
  obtain ⟨h1, h2, hw, rfl⟩ := heq
  refine ⟨rfl, ?_, rfl, rfl, rfl, rfl, rfl, rfl⟩
  rw [hw]

/-- Witness for C8: the draw that takes `demoA` to `demoDrawn` appends the
single winner record and leaves every other component unchanged. -/
theorem spec_C8_witness :
    demoDrawn.winners = demoA.winners ++ [⟨1, "Alice", 1⟩] ∧
    demoDrawn.winnerAddresses
      = demoA.winnerAddresses ++ [(⟨1, "Alice", 1⟩ : WinnerInfo).winnerAddress] ∧
    demoDrawn.participants = demoA.participants ∧
    demoDrawn.participantAddresses = demoA.participantAddresses ∧
    demoDrawn.assignedNumbers = demoA.assignedNumbers ∧
    demoDrawn.numberAssigned = demoA.numberAssigned ∧
    numberPool demoDrawn = numberPool demoA ∧
    demoDrawn.admin = demoA.admin :=
  spec_C8 demoA 0 0 demoDrawn ⟨1, "Alice", 1⟩ (by rfl)

/-- C9: `getParticipantInfo` never errors; for an unregistered identity it
returns the zero-valued fields with existence flag `false`, and for a
registered identity the stored name and number with existence flag `true`. -/
theorem spec_C9 (s : RaffleState) (h : Reachable s) (a : Nat) :
    (a ∉ s.participantAddresses → getParticipantInfo s a = ("", 0, false)) ∧
    (a ∈ s.participantAddresses →
      getParticipantInfo s a =
        ((participantLookup s a).name, (participantLookup s a).number, true)) := by
  have hi := reachable_inv h
  constructor
  · intro ha
    have hex : (participantLookup s a).exists_ = false := by
      cases hb : (participantLookup s a).exists_
      · rfl
      · exact absurd ((hi.existsIff a).mp hb) ha
    have hex' : (mappingLookup s.participants a).exists_ = false := hex
    have hfind := find?_eq_none_of_not_exists s.participants a hi.storedExists hex'
    have hdef := mappingLookup_default_of_find?_none s.participants a hfind
    unfold getParticipantInfo
    simp only [participantLookup]
    rw [hdef]
  · intro ha
    have hex := (hi.existsIff a).mpr ha
    simp only [getParticipantInfo]
    rw [hex]

/-- Witness for C9 at `demoA`: identity `2` is unregistered, identity `1` is
registered. -/
theorem spec_C9_witness :
    getParticipantInfo demoA 2 = ("", 0, false) ∧
    getParticipantInfo demoA 1 =
      ((participantLookup demoA 1).name, (participantLookup demoA 1).number, true) :=
  ⟨(spec_C9 demoA reachable_demoA 2).1 (by decide),
   (spec_C9 demoA reachable_demoA 1).2 (by decide)⟩

/-- C10: whenever the eligible count is positive, the reduced random index is
strictly below it, the locate scan of `drawWinner` selects exactly the
eligible participant at that index (so the no-break branch that would leave
the default zero identity is never taken), and the selected identity has an
existing participant record. -/
theorem spec_C10 (s : RaffleState) (h : Reachable s) (e : Nat)
    (hpos : 0 < (eligibleList s).length) :
    countEligible s.participantAddresses s.winnerAddresses = (eligibleList s).length ∧
    e % (eligibleList s).length < (eligibleList s).length ∧
    (eligibleList s)[e % (eligibleList s).length]? = some (drawnAddress s e) ∧
    (participantLookup s (drawnAddress s e)).exists_ = true := by
  have hi := reachable_inv h
  have hidx : e % (eligibleList s).length < (eligibleList s).length := Nat.mod_lt _ hpos
  refine ⟨countEligible_eq_eligibleList s, hidx, drawnAddress_getElem s e hpos, ?_⟩
  have hmem := drawnAddress_mem s e hpos
  unfold eligibleList at hmem
  rw [List.mem_filter] at hmem
  exact (hi.existsIff _).mpr hmem.1

/-- Witness for C10 at `demoA` with entropy `7`. -/
theorem spec_C10_witness :
    countEligible demoA.participantAddresses demoA.winnerAddresses
      = (eligibleList demoA).length ∧
    7 % (eligibleList demoA).length < (eligibleList demoA).length ∧
    (eligibleList demoA)[7 % (eligibleList demoA).length]? = some (drawnAddress demoA 7) ∧
    (participantLookup demoA (drawnAddress demoA 7)).exists_ = true :=
  spec_C10 demoA reachable_demoA 7 (by decide)
